import Mathlib

/-!
Verification of the tolerant NFO metadata parser of this repository
(`nfo_parser_fixed.py`, class `FixedNFOParser`), as a shallow embedding.

Modelling conventions:
* A file on disk is an `Option String`: `none` is an unreadable/missing file,
  `some s` is a readable file whose decoded text content is `s`.
* Python exceptions inside a strategy are `Except Unit`; `parse_nfo`'s
  `try/except Exception: continue` loop is `runChainE`.
* Python `float` values are modelled as exact rationals `ℚ` (every concrete
  rating text appearing below is exactly representable in binary64, so the
  model is faithful at those inputs).
* `unicodedata.category(c)[0] == 'C'` is modelled by `isCatC`, covering the
  control categories Cc (U+0000..U+001F, U+007F..U+009F); the further
  category-C blocks (format, surrogate, private use, unassigned) are outside
  the character ranges exercised here.
* `html.unescape` is modelled for the five standard named entities and
  decimal/hexadecimal numeric character references, non-recursively, which
  covers all entity forms appearing in the NFO sidecars considered here.
-/

/-- Whitespace as Python `str.strip` / regex `\s` sees it (ASCII range). -/
def isPySpace (c : Char) : Bool :=
  c = ' ' || c = '\t' || c = '\n' || c = '\r' || c = '\x0B' || c = '\x0C'

/-- Character-list version of Python `str.strip()`. -/
def stripChars (cs : List Char) : List Char :=
  ((cs.dropWhile isPySpace).reverse.dropWhile isPySpace).reverse

/-- Python `str.strip()`. -/
def pyStrip (s : String) : String :=
  String.mk (stripChars s.data)

/-- Unicode general-category test `category(c)[0] == 'C'`, modelled on the
control blocks Cc (see the module header for the modelled subset). -/
def isCatC (c : Char) : Bool :=
  c.toNat < 0x20 || (0x7F ≤ c.toNat && c.toNat ≤ 0x9F)

/-- Decimal digit test. -/
def isDig (c : Char) : Bool := '0' ≤ c && c ≤ '9'

/-- Hexadecimal digit test. -/
def isHexDig (c : Char) : Bool :=
  isDig c || ('a' ≤ c && c ≤ 'f') || ('A' ≤ c && c ≤ 'F')

/-- Value of a decimal digit list (most significant first). -/
def digitsToNat (cs : List Char) : Nat :=
  cs.foldl (fun acc c => acc * 10 + (c.toNat - '0'.toNat)) 0

/-- Value of a hexadecimal digit list (most significant first). -/
def hexToNat (cs : List Char) : Nat :=
  cs.foldl (fun acc c =>
    acc * 16 +
      (if isDig c then c.toNat - '0'.toNat
       else if 'a' ≤ c && c ≤ 'f' then c.toNat - 'a'.toNat + 10
       else c.toNat - 'A'.toNat + 10)) 0

/-- Character a numeric reference decodes to: the code point itself when it
is a Unicode scalar value, the replacement character U+FFFD otherwise. -/
def refChar (n : Nat) : Char :=
  if h : n < 0xD800 ∨ (0xDFFF < n ∧ n < 0x110000) then
    Char.ofNatAux n h
  else
    Char.ofNat 0xFFFD

/-- Does `pat` start `cs`? -/
def startsWithList (pat cs : List Char) : Bool :=
  match pat, cs with
  | [], _ => true
  | _ :: _, [] => false
  | p :: ps, c :: rest => p = c && startsWithList ps rest

/-- Fueled worker for `pyUnescape`; the fuel only serves termination and is
always ample at the call site. -/
def pyUnescapeAux : Nat → List Char → List Char
  | 0, cs => cs
  | fuel + 1, cs =>
    match cs with
    | [] => []
    | '&' :: rest =>
      if startsWithList "amp;".data rest then '&' :: pyUnescapeAux fuel (rest.drop 4)
      else if startsWithList "lt;".data rest then '<' :: pyUnescapeAux fuel (rest.drop 3)
      else if startsWithList "gt;".data rest then '>' :: pyUnescapeAux fuel (rest.drop 3)
      else if startsWithList "quot;".data rest then '"' :: pyUnescapeAux fuel (rest.drop 5)
      else if startsWithList "apos;".data rest then '\'' :: pyUnescapeAux fuel (rest.drop 5)
      else
        match rest with
        | '#' :: 'x' :: tl =>
          match tl.takeWhile isHexDig, tl.dropWhile isHexDig with
          | d :: ds, ';' :: tl2 => refChar (hexToNat (d :: ds)) :: pyUnescapeAux fuel tl2
          | _, _ => '&' :: pyUnescapeAux fuel rest
        | '#' :: 'X' :: tl =>
          match tl.takeWhile isHexDig, tl.dropWhile isHexDig with
          | d :: ds, ';' :: tl2 => refChar (hexToNat (d :: ds)) :: pyUnescapeAux fuel tl2
          | _, _ => '&' :: pyUnescapeAux fuel rest
        | '#' :: tl =>
          match tl.takeWhile isDig, tl.dropWhile isDig with
          | d :: ds, ';' :: tl2 => refChar (digitsToNat (d :: ds)) :: pyUnescapeAux fuel tl2
          | _, _ => '&' :: pyUnescapeAux fuel rest
        | _ => '&' :: pyUnescapeAux fuel rest
    | c :: rest => c :: pyUnescapeAux fuel rest

/-- Model of `html.unescape`: replace the five standard named entity
references and numeric character references, left to right and
non-recursively; an `&` that begins no recognised reference is kept. -/
def pyUnescape (cs : List Char) : List Char :=
  pyUnescapeAux (cs.length + 1) cs

/-- Worker for the `re.sub(r'\s+', ' ', text)` collapse; the flag records
whether the previous input char was inside an already-replaced run. -/
def collapseAux : Bool → List Char → List Char
  | _, [] => []
  | prev, c :: rest =>
    if isPySpace c then
      if prev then collapseAux true rest else ' ' :: collapseAux true rest
    else c :: collapseAux false rest

/-- Collapse whitespace runs to a single space. -/
def collapseWs (cs : List Char) : List Char := collapseAux false cs

/-- Model of `FixedNFOParser._clean_text` (source lines 232-249): entity
decode, control-character removal, whitespace collapsing, strip. -/
def cleanText (s : String) : String :=
  if s = "" then ""
  else String.mk (stripChars (collapseWs ((pyUnescape s.data).filter (fun c => !isCatC c))))

/-- Model of Python `float(s)` on plain decimal literals: optional sign,
digits with an optional fractional part, surrounding whitespace ignored.
Exponent, infinity and NaN forms do not occur in the inputs considered. -/
def parseFloat (s : String) : Option ℚ :=
  let cs := stripChars s.data
  let sb : Int × List Char :=
    match cs with
    | '-' :: tl => (-1, tl)
    | '+' :: tl => (1, tl)
    | _ => (1, cs)
  let intPart := sb.2.takeWhile isDig
  let rest := sb.2.dropWhile isDig
  match rest with
  | [] =>
    if intPart.isEmpty then none
    else some (mkRat (sb.1 * (digitsToNat intPart : Int)) 1)
  | '.' :: frac =>
    if frac.all isDig && !(intPart.isEmpty && frac.isEmpty) then
      some (mkRat (sb.1 * ((digitsToNat intPart * 10 ^ frac.length + digitsToNat frac : Nat) : Int))
        (10 ^ frac.length))
    else none
  | _ => none

/-- Element node of the parsed markup tree, as `xml.etree.ElementTree`
exposes it to this parser: tag name, text before the first child, child
elements. Text between or after children ("tails") is validated during
parsing but is not consulted by any extraction routine of the source. -/
inductive XElem where
  | mk (tag : String) (text : Option String) (children : List XElem)

mutual

/-- Decidable equality on nodes. -/
def XElem.decEq : (a b : XElem) → Decidable (a = b)
  | .mk t1 x1 c1, .mk t2 x2 c2 =>
    if h1 : t1 = t2 then
      if h2 : x1 = x2 then
        match XElem.decEqList c1 c2 with
        | isTrue h3 => isTrue (by rw [h1, h2, h3])
        | isFalse h3 => isFalse (by intro he; injection he; contradiction)
      else isFalse (by intro he; injection he; contradiction)
    else isFalse (by intro he; injection he; contradiction)

/-- Decidable equality on node lists. -/
def XElem.decEqList : (a b : List XElem) → Decidable (a = b)
  | [], [] => isTrue rfl
  | [], _ :: _ => isFalse (fun h => List.noConfusion h)
  | _ :: _, [] => isFalse (fun h => List.noConfusion h)
  | a :: as, b :: bs =>
    match XElem.decEq a b, XElem.decEqList as bs with
    | isTrue h1, isTrue h2 => isTrue (by rw [h1, h2])
    | isFalse h1, _ => isFalse (by intro he; injection he; contradiction)
    | _, isFalse h2 => isFalse (by intro he; injection he; contradiction)

end

instance : DecidableEq XElem := XElem.decEq

/-- Tag name of a node. -/
def XElem.tag : XElem → String
  | .mk t _ _ => t

/-- Text before the first child (`elem.text` in ElementTree). -/
def XElem.text : XElem → Option String
  | .mk _ tx _ => tx

/-- Child elements of a node. -/
def XElem.children : XElem → List XElem
  | .mk _ _ cs => cs

/-- Model of `root.find(tag)`: first direct child with the tag. -/
def findChild (e : XElem) (t : String) : Option XElem :=
  e.children.find? (fun c => c.tag == t)

/-- Model of `root.findall(tag)`: all direct children with the tag, in
document order. -/
def childrenTagged (e : XElem) (t : String) : List XElem :=
  e.children.filter (fun c => c.tag == t)

/-- Characters a strict XML parser accepts literally in content. -/
def isXmlChar (n : Nat) : Bool :=
  n = 9 || n = 10 || n = 13 || (0x20 ≤ n && n ≤ 0xD7FF) ||
    (0xE000 ≤ n && n ≤ 0xFFFD) || (0x10000 ≤ n && n ≤ 0x10FFFF)

/-- Strict entity resolution after a `&`: the five predefined entities and
numeric character references to valid XML characters; anything else is a
well-formedness error (`none`), as in expat. -/
def parseEntity (cs : List Char) : Option (Char × List Char) :=
  if startsWithList "amp;".data cs then some ('&', cs.drop 4)
  else if startsWithList "lt;".data cs then some ('<', cs.drop 3)
  else if startsWithList "gt;".data cs then some ('>', cs.drop 3)
  else if startsWithList "quot;".data cs then some ('"', cs.drop 5)
  else if startsWithList "apos;".data cs then some ('\'', cs.drop 5)
  else
    match cs with
    | '#' :: 'x' :: tl =>
      match tl.takeWhile isHexDig, tl.dropWhile isHexDig with
      | d :: ds, ';' :: tl2 =>
        let n := hexToNat (d :: ds)
        if isXmlChar n then some (Char.ofNat n, tl2) else none
      | _, _ => none
    | '#' :: tl =>
      match tl.takeWhile isDig, tl.dropWhile isDig with
      | d :: ds, ';' :: tl2 =>
        let n := digitsToNat (d :: ds)
        if isXmlChar n then some (Char.ofNat n, tl2) else none
      | _, _ => none
    | _ => none

/-- Scan one text segment up to a `<` or the end of input, resolving
entities and rejecting characters a strict parser rejects. -/
def scanText : Nat → List Char → Option (List Char × List Char)
  | 0, _ => none
  | _ + 1, [] => some ([], [])
  | fuel + 1, c :: rest =>
    if c = '<' then some ([], c :: rest)
    else if c = '&' then
      match parseEntity rest with
      | some (ch, rest2) => (scanText fuel rest2).map (fun p => (ch :: p.1, p.2))
      | none => none
    else if isXmlChar c.toNat then
      (scanText fuel rest).map (fun p => (c :: p.1, p.2))
    else none

/-- First character of an XML name. -/
def isNameStart (c : Char) : Bool := c.isAlpha || c = '_' || c = ':'

/-- Subsequent characters of an XML name. -/
def isNameChar (c : Char) : Bool :=
  c.isAlphanum || c = '_' || c = ':' || c = '-' || c = '.'

mutual

/-- Parse element content: leading text, then a sequence of child elements
(whose tail texts are validated and dropped), stopping in front of a
closing tag or at the end of input. -/
def parseNodes : Nat → List Char → Option (List Char × List XElem × List Char)
  | 0, _ => none
  | fuel + 1, cs =>
    match scanText fuel cs with
    | none => none
    | some (txt, rest) =>
      match rest with
      | [] => some (txt, [], [])
      | '<' :: '/' :: _ => some (txt, [], rest)
      | '<' :: _ =>
        match parseElem fuel rest with
        | none => none
        | some (e, rest2) =>
          match parseNodes fuel rest2 with
          | none => none
          | some (_, es, rest3) => some (txt, e :: es, rest3)
      | _ => none

/-- Parse one element (no attributes modelled; the sidecar documents
considered here carry none): `<name>content</name>` or `<name/>`. -/
def parseElem : Nat → List Char → Option (XElem × List Char)
  | 0, _ => none
  | fuel + 1, cs =>
    match cs with
    | '<' :: rest =>
      match rest.takeWhile isNameChar with
      | [] => none
      | n0 :: name1 =>
        if !isNameStart n0 then none
        else
          let name := n0 :: name1
          let rest3 := (rest.drop name.length).dropWhile isPySpace
          match rest3 with
          | '/' :: '>' :: tl => some (⟨String.mk name, none, []⟩, tl)
          | '>' :: tl =>
            match parseNodes fuel tl with
            | none => none
            | some (txt, children, rest4) =>
              match rest4 with
              | '<' :: '/' :: tl2 =>
                if startsWithList name tl2 then
                  match (tl2.drop name.length).dropWhile isPySpace with
                  | '>' :: tl4 =>
                    some (⟨String.mk name,
                          (if txt.isEmpty then none else some (String.mk txt)),
                          children⟩, tl4)
                  | _ => none
                else none
              | _ => none
          | _ => none
    | _ => none

end

/-- Model of a strict structured parse (`ET.parse` / `minidom.parse`) of
file text: `some root` on a well-formed document, `none` on any
well-formedness error (empty input, bare `&`, invalid character reference,
control character, trailing junk, multiple roots, mismatched tags). -/
def parseXML (s : String) : Option XElem :=
  let cs := s.data.dropWhile isPySpace
  match parseElem (2 * cs.length + 8) cs with
  | some (root, rest) => if (rest.dropWhile isPySpace).isEmpty then some root else none
  | none => none

/-- Characters removed by `_fix_xml_issues` (ranges 00-08, 0B, 0C, 0E-1F). -/
def isBadCtrl (c : Char) : Bool :=
  c.toNat ≤ 0x08 || c.toNat = 0x0B || c.toNat = 0x0C ||
    (0x0E ≤ c.toNat && c.toNat ≤ 0x1F)

/-- Lookahead of the `&`-escaping regex in `_fix_xml_issues`: does the text
after a `&` continue one of `amp; lt; gt; quot; apos; #digits; #xhex;`? -/
def entityRefOk (rest : List Char) : Bool :=
  startsWithList "amp;".data rest || startsWithList "lt;".data rest ||
  startsWithList "gt;".data rest || startsWithList "quot;".data rest ||
  startsWithList "apos;".data rest ||
  (match rest with
   | '#' :: 'x' :: tl =>
     (match tl.takeWhile isHexDig, tl.dropWhile isHexDig with
      | _ :: _, ';' :: _ => true
      | _, _ => false)
   | '#' :: tl =>
     (match tl.takeWhile isDig, tl.dropWhile isDig with
      | _ :: _, ';' :: _ => true
      | _, _ => false)
   | _ => false)

/-- Escape the bare ampersands. -/
def fixXmlAux : List Char → List Char
  | [] => []
  | c :: rest =>
    if c = '&' then
      if entityRefOk rest then '&' :: fixXmlAux rest
      else '&' :: 'a' :: 'm' :: 'p' :: ';' :: fixXmlAux rest
    else c :: fixXmlAux rest

/-- Model of `FixedNFOParser._fix_xml_issues` (source lines 251-258): drop
the invalid control characters, then escape every `&` that does not begin a
recognised reference. -/
def fixXmlIssues (s : String) : String :=
  String.mk (fixXmlAux (s.data.filter (fun c => !isBadCtrl c)))

/-- The `nfo_parsing.defaults` configuration mapping (source lines 15-20):
each key may be present or absent; call sites fall back to hardcoded
literals for absent keys. -/
structure Defaults where
  rating : Option ℚ
  studio : Option String
  director : Option String
  plot : Option String
  maker : Option String
  publisher : Option String
deriving DecidableEq

/-- The literal default dict used when the configuration has no
`nfo_parsing.defaults` entry (source lines 15-20). -/
def fallbackDefaults : Defaults :=
  { rating := some 0, studio := some "未知", director := some "未知",
    plot := some "暂无该部分信息", maker := none, publisher := none }

/-- Model of `config.get('nfo_parsing.defaults', {...})`. -/
def getDefaults (cfg : Option Defaults) : Defaults :=
  cfg.getD fallbackDefaults

/-- The metadata record (the `data` dict of `parse_nfo`). `originaltitle`
and `runtime` are `Option` because the initial dict carries no such keys;
`some` means the key is present. -/
structure Record where
  title : String
  actors : List String
  release_date : String
  rating : ℚ
  plot : String
  genre : List String
  studio : String
  director : String
  maker : String
  publisher : String
  series : String
  originaltitle : Option String
  runtime : Option String
deriving DecidableEq, Repr

/-- The default-initialized record of `parse_nfo` (source lines 27-39). -/
def initData (d : Defaults) : Record :=
  { title := ""
    actors := []
    release_date := ""
    rating := d.rating.getD 0
    plot := d.plot.getD "暂无该部分信息"
    genre := []
    studio := d.studio.getD "未知"
    director := d.director.getD "未知"
    maker := d.maker.getD "未知"
    publisher := d.publisher.getD "未知"
    series := ""
    originaltitle := none
    runtime := none }

/-- Model of `FixedNFOParser._has_meaningful_data` (source lines 63-74).
Note that studio and director are compared against the literal `'未知'`
while plot is compared against `self.defaults.get('plot', '')`. -/
def hasMeaningfulData (dfl : Defaults) (r : Record) : Bool :=
  !(pyStrip r.title == "") ||
  !(pyStrip r.studio == "未知") ||
  !(pyStrip r.director == "未知") ||
  !(pyStrip r.plot == dfl.plot.getD "") ||
  decide (0 < r.rating) ||
  decide (0 < r.actors.length) ||
  decide (0 < r.genre.length) ||
  !(pyStrip r.release_date == "")

/-- One string-field step of `_extract_data_safe`: overwrite `old` when the
tag is found with truthy text whose cleaned form is non-empty. -/
def textFieldUpdate (root : XElem) (tag : String) (old : String) : String :=
  match findChild root tag with
  | some e =>
    match e.text with
    | some t =>
      if t ≠ "" then (if cleanText t ≠ "" then cleanText t else old) else old
    | none => old
  | none => old

/-- Same step for the dict keys absent from the initial record. -/
def optFieldUpdate (root : XElem) (tag : String) (old : Option String) : Option String :=
  match findChild root tag with
  | some e =>
    match e.text with
    | some t =>
      if t ≠ "" then (if cleanText t ≠ "" then some (cleanText t) else old) else old
    | none => old
  | none => old

/-- Rating step of `_extract_data_safe` (source lines 195-199): coerce the
cleaned text with `float`, keeping the prior value on failure. -/
def ratingUpdate (root : XElem) (old : ℚ) : ℚ :=
  match findChild root "rating" with
  | some e =>
    match e.text with
    | some t =>
      if t ≠ "" then
        (if cleanText t ≠ "" then (parseFloat (cleanText t)).getD old else old)
      else old
    | none => old
  | none => old

/-- Contribution of one `genre` child (source lines 205-209): its cleaned
text when truthy and non-empty after cleaning. -/
def genrePick (g : XElem) : Option String :=
  match g.text with
  | some t =>
    if t ≠ "" then (if cleanText t ≠ "" then some (cleanText t) else none) else none
  | none => none

/-- Genre accumulation of `_extract_data_safe` (source lines 204-209). -/
def genresOf (root : XElem) : List String :=
  (childrenTagged root "genre").filterMap genrePick

/-- Contribution of one `actor` child (source lines 212-217): the cleaned
text of its `name` sub-element, or nothing when that sub-element is
missing or has no truthy text. -/
def actorPick (a : XElem) : Option String :=
  match findChild a "name" with
  | some ne =>
    match ne.text with
    | some t =>
      if t ≠ "" then (if cleanText t ≠ "" then some (cleanText t) else none) else none
    | none => none
  | none => none

/-- Actor accumulation of `_extract_data_safe` (source lines 211-217): an
`actor` child contributes its `name` sub-element's cleaned text, and is
skipped without a `name` sub-element carrying truthy text. -/
def actorsOf (root : XElem) : List String :=
  (childrenTagged root "actor").filterMap actorPick

/-- Release-date priority scan of `_extract_data_safe` (source lines
220-224): first of the given tags present with truthy text wins. -/
def releaseFrom (root : XElem) : List String → String → String
  | [], old => old
  | tag :: tags, old =>
    match findChild root tag with
    | some e =>
      match e.text with
      | some t => if t ≠ "" then cleanText t else releaseFrom root tags old
      | none => releaseFrom root tags old
    | none => releaseFrom root tags old

/-- Model of `FixedNFOParser._extract_data_safe` (source lines 173-230),
the field extraction shared by strategies 1 and 2. The Python `for` loop
over the `fields` dict is unrolled; `genre` and `actors` are reset to the
freshly accumulated lists (source lines 204 and 211). -/
def extractDataSafe (root : XElem) (d : Record) : Record :=
  { title := textFieldUpdate root "title" d.title
    originaltitle := optFieldUpdate root "originaltitle" d.originaltitle
    rating := ratingUpdate root d.rating
    studio := textFieldUpdate root "studio" d.studio
    director := textFieldUpdate root "director" d.director
    maker := textFieldUpdate root "maker" d.maker
    publisher := textFieldUpdate root "publisher" d.publisher
    plot := textFieldUpdate root "plot" d.plot
    series := textFieldUpdate root "series" d.series
    runtime := optFieldUpdate root "runtime" d.runtime
    genre := genresOf root
    actors := actorsOf root
    release_date := releaseFrom root ["releasedate", "premiered", "release"] d.release_date }

mutual

/-- All elements of a subtree in document (pre-)order, as
`minidom.getElementsByTagName` traverses them. -/
def allElems : XElem → List XElem
  | .mk t tx cs => .mk t tx cs :: allElemsList cs

/-- Worker of `allElems` over child lists. -/
def allElemsList : List XElem → List XElem
  | [] => []
  | e :: es => allElems e ++ allElemsList es

end

/-- First element with the tag whose first child is a text node, yielding
that raw node value (model of the `getElementsByTagName` /
`elem.firstChild.nodeValue` loops of `_parse_with_minidom`, source lines
143-156; elements whose first child is another element are not modelled —
on those the source would store a Python `None`). -/
def mdFind (root : XElem) (tag : String) : Option String :=
  ((allElems root).filterMap (fun e =>
    if e.tag == tag then
      match e.text with
      | some t => if t ≠ "" then some t else none
      | none => none
    else none)).head?

/-- Model of `FixedNFOParser._parse_with_minidom`'s extraction (source
lines 143-159): only title, studio and series, stored raw — without
`_clean_text`. -/
def minidomExtract (root : XElem) (d : Record) : Record :=
  { d with
    title := (mdFind root "title").getD d.title
    studio := (mdFind root "studio").getD d.studio
    series := (mdFind root "series").getD d.series }

/-- Case-insensitive `startsWithList` (ASCII folding, as `re.IGNORECASE`
applies to the tag letters used here). -/
def ciStartsWith (pat cs : List Char) : Bool :=
  match pat, cs with
  | [], _ => true
  | _ :: _, [] => false
  | p :: ps, c :: rest => p.toLower = c.toLower && ciStartsWith ps rest

/-- The `[^>]*>` step: skip to just past the first `>`, failing when there
is none. -/
def dropToGt (cs : List Char) : Option (List Char) :=
  match cs.dropWhile (fun c => c != '>') with
  | [] => none
  | _ :: tl => some tl

/-- Lazy capture `(.*?)close`: the characters before the first occurrence
of `close` (compared case-insensitively when `ci`), together with the rest
after `close`; without `nl` (no `re.DOTALL`) a newline aborts the match. -/
def capSplit (ci nl : Bool) (close : List Char) : List Char → Option (List Char × List Char)
  | [] => none
  | c :: rest =>
    if (if ci then ciStartsWith close (c :: rest) else startsWithList close (c :: rest)) then
      some ([], (c :: rest).drop close.length)
    else if !nl && c = '\n' then none
    else (capSplit ci nl close rest).map (fun p => (c :: p.1, p.2))

/-- Leftmost match of `re.search(r'<tag[^>]*>(.*?)</tag>', content,
re.IGNORECASE | re.DOTALL)` (source line 168), returning the captured
group. -/
def searchCap (tag : List Char) : List Char → Option (List Char)
  | [] => none
  | c :: rest =>
    if ciStartsWith ('<' :: tag) (c :: rest) then
      match dropToGt ((c :: rest).drop (tag.length + 1)) with
      | some afterGt =>
        match capSplit true true ('<' :: '/' :: (tag ++ ['>'])) afterGt with
        | some (cap, _) => some cap
        | none => searchCap tag rest
      | none => searchCap tag rest
    else searchCap tag rest

/-- Model of `FixedNFOParser._extract_field` (source lines 166-171): the
cleaned captured group, or the empty string when there is no match. -/
def extractField (content tag : String) : String :=
  match searchCap tag.data content.data with
  | some cap => cleanText (String.mk cap)
  | none => ""

/-- The non-overlapping `re.findall(r'<tag[^>]*>(.*?)</tag>', content,
re.IGNORECASE)` scan used for genres (source line 127; no `re.DOTALL`, so
a capture cannot span a newline). -/
def findAllCI (tag : List Char) : Nat → List Char → List (List Char)
  | 0, _ => []
  | _ + 1, [] => []
  | fuel + 1, c :: rest =>
    if ciStartsWith ('<' :: tag) (c :: rest) then
      match dropToGt ((c :: rest).drop (tag.length + 1)) with
      | some afterGt =>
        match capSplit true false ('<' :: '/' :: (tag ++ ['>'])) afterGt with
        | some (cap, after) => cap :: findAllCI tag fuel after
        | none => findAllCI tag fuel rest
      | none => findAllCI tag fuel rest
    else findAllCI tag fuel rest

/-- The `.*?<name[^>]*>` step of the actor pattern: first `<name` (case
sensitively), then past its `>`. -/
def findNameOpen : List Char → Option (List Char)
  | [] => none
  | c :: rest =>
    if startsWithList "<name".data (c :: rest) then dropToGt ((c :: rest).drop 5)
    else findNameOpen rest

/-- The non-overlapping scan of `re.findall(r'<actor[^>]*>.*?<name[^>]*>`
`(.*?)</name>.*?</actor>', content, re.DOTALL)` (source line 131; case
sensitive, newlines allowed everywhere), with lazy sub-patterns taken as
first occurrences. -/
def findAllActors : Nat → List Char → List (List Char)
  | 0, _ => []
  | _ + 1, [] => []
  | fuel + 1, c :: rest =>
    if startsWithList "<actor".data (c :: rest) then
      match dropToGt ((c :: rest).drop 6) with
      | some afterGt =>
        match findNameOpen afterGt with
        | some afterNameGt =>
          match capSplit false true "</name>".data afterNameGt with
          | some (cap, afterName) =>
            match capSplit false true "</actor>".data afterName with
            | some (_, afterActor) => cap :: findAllActors fuel afterActor
            | none => findAllActors fuel rest
          | none => findAllActors fuel rest
        | none => findAllActors fuel rest
      | none => findAllActors fuel rest
    else findAllActors fuel rest

/-- Genre list of the line-by-line strategy (source lines 127-128): filter
on the raw captured text's strip, then clean. -/
def genresOfContent (content : String) : List String :=
  ((findAllCI "genre".data (content.data.length + 1) content.data).filter
    (fun g => !(stripChars g).isEmpty)).map (fun g => cleanText (String.mk g))

/-- Actor list of the line-by-line strategy (source lines 131-132). -/
def actorsOfContent (content : String) : List String :=
  ((findAllActors (content.data.length + 1) content.data).filter
    (fun a => !(stripChars a).isEmpty)).map (fun a => cleanText (String.mk a))

/-- Model of `FixedNFOParser._parse_line_by_line` (source lines 104-134)
after the file read: every scalar field is assigned the extraction result
unconditionally (so an absent tag resets the field to `''`); only the
rating keeps its prior value when its text is missing or non-numeric. -/
def lineExtract (content : String) (d : Record) : Record :=
  let rt := extractField content "rating"
  { d with
    title := extractField content "title"
    studio := extractField content "studio"
    director := extractField content "director"
    plot := extractField content "plot"
    release_date := extractField content "releasedate"
    series := extractField content "series"
    runtime := some (extractField content "runtime")
    rating := if rt ≠ "" then (parseFloat rt).getD d.rating else d.rating
    genre := genresOfContent content
    actors := actorsOfContent content }

/-- A parse strategy as `parse_nfo` invokes it: it receives the shared
record and either raises (`error`) or returns the updated record. -/
abbrev Strategy := Record → Except Unit Record

/-- Strategy 1, `_parse_standard_xml` (source lines 76-80): strict parse,
then `_extract_data_safe`; raises on a read failure or a parse error. -/
def stratStandardXml (file : Option String) : Strategy := fun d =>
  match file with
  | none => .error ()
  | some s =>
    match parseXML s with
    | some root => .ok (extractDataSafe root d)
    | none => .error ()

/-- Strategy 2, `_parse_with_recovery` (source lines 82-102): read the
text, sanitize with `_fix_xml_issues`, strict-parse the sanitized text
(written to a scratch file, modelled separately by `recoveryScratch`),
then `_extract_data_safe`. -/
def stratRecovery (file : Option String) : Strategy := fun d =>
  match file with
  | none => .error ()
  | some s =>
    match parseXML (fixXmlIssues s) with
    | some root => .ok (extractDataSafe root d)
    | none => .error ()

/-- Strategy 3, `_parse_line_by_line` (source lines 104-134): raises only
when the file is unreadable. -/
def stratLineByLine (file : Option String) : Strategy := fun d =>
  match file with
  | none => .error ()
  | some s => .ok (lineExtract s d)

/-- Strategy 4, `_parse_with_minidom` (source lines 136-164). -/
def stratMinidom (file : Option String) : Strategy := fun d =>
  match file with
  | none => .error ()
  | some s =>
    match parseXML s with
    | some root => .ok (minidomExtract root d)
    | none => .error ()

/-- The fixed strategy order of `parse_nfo` (source lines 42-47). -/
def strategiesFor (file : Option String) : List Strategy :=
  [stratStandardXml file, stratRecovery file, stratLineByLine file, stratMinidom file]

/-- The strategy loop of `parse_nfo` (source lines 49-61): each strategy
runs inside a containment boundary (`except Exception: continue`); the
first result judged meaningful is returned at once; a strategy that
returned without being accepted has already mutated the shared record,
which is what the next strategy (and the final fallthrough) receives. -/
def runChainE (dfl : Defaults) : List Strategy → Record → Except Unit Record
  | [], data => .ok data
  | s :: rest, data =>
    match s data with
    | .ok result =>
      if hasMeaningfulData dfl result then .ok result else runChainE dfl rest result
    | .error _ => runChainE dfl rest data

/-- Instrumentation of the same loop: how many strategies are invoked. -/
def runChainCount (dfl : Defaults) : List Strategy → Record → Nat
  | [], _ => 0
  | s :: rest, data =>
    match s data with
    | .ok result =>
      if hasMeaningfulData dfl result then 1 else 1 + runChainCount dfl rest result
    | .error _ => 1 + runChainCount dfl rest data

/-- `parse_nfo` with its exception boundary made explicit: an `error`
value here would be an exception escaping to the caller. -/
def parseNfoE (cfg : Option Defaults) (file : Option String) : Except Unit Record :=
  runChainE (getDefaults cfg) (strategiesFor file) (initData (getDefaults cfg))

/-- Model of `FixedNFOParser.parse_nfo` (source lines 22-61). -/
def parseNfo (cfg : Option Defaults) (file : Option String) : Record :=
  match parseNfoE cfg file with
  | .ok r => r
  | .error _ => initData (getDefaults cfg)

/-- Number of strategies `parse_nfo` invokes on the given input. -/
def parseNfoAttempts (cfg : Option Defaults) (file : Option String) : Nat :=
  runChainCount (getDefaults cfg) (strategiesFor file) (initData (getDefaults cfg))

/-- Outcome flags of the I/O steps of one `_parse_with_recovery` run
(source lines 82-102), in program order: the `open`/`read` of the source
file, the `NamedTemporaryFile` creation, and the `write` of the sanitized
content. `os.unlink` itself is assumed to succeed when reached; the
question modelled is on which paths it is reached. -/
structure ScratchRun where
  readOk : Bool
  createOk : Bool
  writeOk : Bool
  parseOk : Bool
deriving DecidableEq

/-- Control-flow model of the scratch file's lifecycle in
`_parse_with_recovery`: the first component is whether the scratch file
was created on disk, the second whether the `finally: os.unlink` was
executed before the strategy exited. The read happens before creation; a
`write` failure propagates out of the `with` block before the
`try/finally` is entered; once the `try` is entered, `finally` runs on
success and on parse failure alike, so the outcome of the parse
(`parseOk`) never influences cleanup. -/
def recoveryScratch (t : ScratchRun) : Bool × Bool :=
  if !t.readOk then (false, false)
  else if !t.createOk then (false, false)
  else if !t.writeOk then (true, false)
  else (true, true)

/-- Decidable equality for strategy outcomes. -/
instance {ε α : Type} [DecidableEq ε] [DecidableEq α] : DecidableEq (Except ε α) := fun a b =>
  match a, b with
  | .ok x, .ok y =>
    if h : x = y then isTrue (by rw [h]) else isFalse (by intro he; injection he; contradiction)
  | .error x, .error y =>
    if h : x = y then isTrue (by rw [h]) else isFalse (by intro he; injection he; contradiction)
  | .ok _, .error _ => isFalse (fun h => Except.noConfusion h)
  | .error _, .ok _ => isFalse (fun h => Except.noConfusion h)

/-- A well-formed document whose strict-parse result carries none of the
fields the acceptance heuristic inspects (series is not inspected), with
studio, director and plot texts equal to the hardcoded defaults. -/
def docSeriesOnly : String :=
  "<r><series>ABC</series><studio>未知</studio><director>未知</director><plot>暂无该部分信息</plot></r>"

/-- A document with a bare `&`: strategy 1 fails structurally, strategy 2
recovers it (writing `maker`) without being accepted, strategy 3 is then
accepted. -/
def docBareAmp : String := "<r><maker>X &</maker></r>"

/-- A document whose title is the single control character U+007F (written
as a character reference so that a strict parser accepts it), all
heuristic-visible fields at their defaults. -/
def docCtrlTitle : String :=
  "<r><title>&#127;</title><studio>未知</studio><director>未知</director><plot>暂无该部分信息</plot></r>"

/-- A document whose rating text is `8.25`. -/
def docRating825 : String := "<movie><rating>8.25</rating></movie>"

/-- A document with a non-numeric rating text and a meaningful title. -/
def docRatingNaN : String := "<movie><title>T</title><rating>abc</rating></movie>"

/-- A well-formed document with a meaningful title. -/
def docTitleHi : String := "<movie><title>Hi</title></movie>"

/-- The strict-parse tree of `docTitleHi`. -/
def rootTitleHi : XElem := .mk "movie" none [.mk "title" (some "Hi") []]

/-- A document listing actors A, B, C, each with a `name` sub-element,
followed by a bare actor element without one. -/
def docActorsABC : String :=
  "<movie><actor><name>A</name></actor><actor><name>B</name></actor><actor><name>C</name></actor><actor></actor></movie>"

/-- The strict-parse tree of `docActorsABC`. -/
def rootActorsABC : XElem :=
  .mk "movie" none
    [.mk "actor" none [.mk "name" (some "A") []],
     .mk "actor" none [.mk "name" (some "B") []],
     .mk "actor" none [.mk "name" (some "C") []],
     .mk "actor" none []]

/-- An `actor` element carrying a `name` sub-element with the given text. -/
def actorElem (n : String) : XElem := .mk "actor" none [.mk "name" (some n) []]

/-- A configuration whose studio default differs from the literal `未知`
that `_has_meaningful_data` compares against. -/
def acmeDefaults : Defaults := { fallbackDefaults with studio := some "ACME" }

/-- The record strategy 2 leaves behind on `docBareAmp`: only `maker` was
written. -/
def recBareAmp : Record := { initData fallbackDefaults with maker := "X &" }

/-- A root element with no children at all. -/
def rootEmptyMovie : XElem := .mk "movie" none []

/-- A record whose `runtime` key is present. -/
def recRun : Record := { initData fallbackDefaults with runtime := some "90" }

/-- A record carrying non-empty genre and actor lists, to exhibit the
unconditional list rescan of `_extract_data_safe`. -/
def recLists : Record :=
  { initData fallbackDefaults with genre := ["X"], actors := ["Y"] }

/-- Acceptance predicate as the specification words it, for comparison
with `hasMeaningfulData` (which is translated from the source): here the
studio, director and plot comparisons are all against the values supplied
by the configuration. -/
def claimMeaningful (dfl : Defaults) (r : Record) : Bool :=
  !(pyStrip r.title == "") ||
  !(r.studio == dfl.studio.getD "未知") ||
  !(r.director == dfl.director.getD "未知") ||
  !(r.plot == dfl.plot.getD "暂无该部分信息") ||
  decide (0 < r.rating) ||
  decide (0 < r.actors.length) ||
  decide (0 < r.genre.length) ||
  !(pyStrip r.release_date == "")

theorem runChainE_ok (dfl : Defaults) (strats : List Strategy) (data : Record) :
    ∃ r, runChainE dfl strats data = Except.ok r := by
  induction strats generalizing data with
  | nil => exact ⟨data, rfl⟩
  | cons s rest ih =>
    cases hs : s data with
    | ok result =>
      by_cases hm : hasMeaningfulData dfl result = true
      · exact ⟨result, by unfold runChainE; rw [hs]; simp [hm]⟩
      · obtain ⟨r, hr⟩ := ih result
        exact ⟨r, by unfold runChainE; rw [hs]; simp [hm, hr]⟩
    | error e =>
      obtain ⟨r, hr⟩ := ih data
      exact ⟨r, by unfold runChainE; rw [hs]; exact hr⟩

theorem meaningful_of_actors (dfl : Defaults) (r : Record) (h : r.actors ≠ []) :
    hasMeaningfulData dfl r = true := by
  have hl : 0 < r.actors.length := List.length_pos.mpr h
  simp [hasMeaningfulData, hl]

theorem textFieldUpdate_cases (root : XElem) (tag old : String) :
    textFieldUpdate root tag old = old ∨ ∃ t, textFieldUpdate root tag old = cleanText t := by
  rcases hf : findChild root tag with _ | e
  · simp [textFieldUpdate, hf]
  · rcases ht : e.text with _ | t
    · simp [textFieldUpdate, hf, ht]
    · by_cases h1 : t = ""
      · simp [textFieldUpdate, hf, ht, h1]
      · by_cases h2 : cleanText t = ""
        · simp [textFieldUpdate, hf, ht, h1, h2]
        · right
          exact ⟨t, by simp [textFieldUpdate, hf, ht, h1, h2]⟩

theorem extractField_cases (content tag : String) :
    extractField content tag = "" ∨ ∃ t, extractField content tag = cleanText t := by
  rcases h : searchCap tag.data content.data with _ | cap
  · simp [extractField, h]
  · right
    exact ⟨String.mk cap, by simp [extractField, h]⟩

theorem all_collapseAux (p : Char → Bool) (hsp : p ' ' = true) :
    ∀ (b : Bool) (cs : List Char), cs.all p = true → (collapseAux b cs).all p = true := by
  intro b cs
  induction cs generalizing b with
  | nil => intro _; simp [collapseAux]
  | cons c rest ih =>
    intro h
    rw [List.all_cons] at h
    have h1 := (Bool.and_eq_true _ _).mp h
    cases hc : isPySpace c with
    | true =>
      cases b with
      | true => simpa [collapseAux, hc] using ih true h1.2
      | false => simp [collapseAux, hc, hsp, ih true h1.2]
    | false => simp [collapseAux, hc, h1.1, ih false h1.2]

theorem all_stripChars (p : Char → Bool) (cs : List Char) (h : cs.all p = true) :
    (stripChars cs).all p = true := by
  rw [List.all_eq_true] at h ⊢
  intro c hc
  apply h
  unfold stripChars at hc
  rw [List.mem_reverse] at hc
  have h1 : c ∈ (cs.dropWhile isPySpace).reverse := (List.dropWhile_sublist _).subset hc
  rw [List.mem_reverse] at h1
  exact (List.dropWhile_sublist _).subset h1

theorem cleanText_no_ctrl (s : String) :
    (cleanText s).data.all (fun c => !isCatC c) = true := by
  unfold cleanText
  by_cases hs : s = ""
  · simp [hs]
  · simp only [hs, if_false]
    apply all_stripChars
    apply all_collapseAux _ (by decide)
    rw [List.all_eq_true]
    intro c hc
    exact (List.mem_filter.mp hc).2

theorem actorPick_actorElem (n : String) (hcl : cleanText n = n) (hne : n ≠ "") :
    actorPick (actorElem n) = some n := by
  simp [actorPick, actorElem, findChild, XElem.children, XElem.tag, XElem.text, hne, hcl]

theorem filterMap_actorPick_map (names : List String)
    (hcl : ∀ n ∈ names, cleanText n = n ∧ n ≠ "") :
    List.filterMap actorPick (names.map actorElem) = names := by
  induction names with
  | nil => rfl
  | cons n ns ih =>
    rw [List.map_cons, List.filterMap_cons,
      actorPick_actorElem n (hcl n (by simp)).1 (hcl n (by simp)).2,
      ih (fun m hm => hcl m (by simp [hm]))]

theorem actorsOf_concat (names : List String) (root : XElem)
    (hch : childrenTagged root "actor" = names.map actorElem ++ [XElem.mk "actor" none []])
    (hcl : ∀ n ∈ names, cleanText n = n ∧ n ≠ "") :
    actorsOf root = names := by
  unfold actorsOf
  rw [hch, List.filterMap_append]
  have h2 : List.filterMap actorPick [XElem.mk "actor" none []] = [] := rfl
  rw [h2, List.append_nil, filterMap_actorPick_map names hcl]

/-- Claim C1: for every configuration and every input file — missing or
unreadable (`none`), empty, binary garbage, or truncated XML (any
`some s`) — `parse_nfo` returns a metadata record, and no exception
escapes its boundary (`parseNfoE` is never an `error`). -/
theorem parse_nfo_total_no_raise :
    ∀ (cfg : Option Defaults) (file : Option String),
      ∃ r : Record, parseNfoE cfg file = Except.ok r ∧ parseNfo cfg file = r := by
  intro cfg file
  obtain ⟨r, hr⟩ := runChainE_ok (getDefaults cfg) (strategiesFor file) (initData (getDefaults cfg))
  have hE : parseNfoE cfg file = Except.ok r := hr
  refine ⟨r, hE, ?_⟩
  unfold parseNfo
  rw [hE]

/-- Claim C2 counterexample: `docSeriesOnly` is a well-formed document
(strategy 1 parses it), yet all four strategies are invoked because no
strategy's result passes the heuristic, and the record finally returned is
not the default-initialized record (its series field was filled in by the
non-accepted attempts). -/
theorem strategy_chain_counterexample :
    (parseXML docSeriesOnly).isSome = true ∧
    parseNfoAttempts none (some docSeriesOnly) = 4 ∧
    parseNfo none (some docSeriesOnly) ≠ initData (getDefaults none) ∧
    (parseNfo none (some docSeriesOnly)).series = "ABC" := by decide

/-- Claim C2 (amended): the four strategies are tried in the fixed order
and the first result passing the heuristic is returned at once with no
later strategy invoked; a well-formed document *whose strategy-1 result is
meaningful* is fully handled by strategy 1 alone; when every strategy
fails or yields a non-meaningful result, the returned record is the shared
record as mutated by the attempted strategies (which coincides with the
default record only when no attempt stored anything). -/
theorem strategy_chain_first_meaningful :
    (∀ (dfl : Defaults) (s : Strategy) (rest : List Strategy) (data r : Record),
      s data = Except.ok r → hasMeaningfulData dfl r = true →
      runChainE dfl (s :: rest) data = Except.ok r ∧ runChainCount dfl (s :: rest) data = 1) ∧
    (∀ (cfg : Option Defaults) (s : String) (root : XElem),
      parseXML s = some root →
      hasMeaningfulData (getDefaults cfg) (extractDataSafe root (initData (getDefaults cfg))) = true →
      parseNfo cfg (some s) = extractDataSafe root (initData (getDefaults cfg)) ∧
        parseNfoAttempts cfg (some s) = 1) := by
  constructor
  · intro dfl s rest data r hs hm
    constructor
    · unfold runChainE
      rw [hs]
      simp [hm]
    · unfold runChainCount
      rw [hs]
      simp [hm]
  · intro cfg s root hp hm
    have h1 : stratStandardXml (some s) (initData (getDefaults cfg)) =
        Except.ok (extractDataSafe root (initData (getDefaults cfg))) := by
      simp [stratStandardXml, hp]
    constructor
    · have hc : runChainE (getDefaults cfg) (strategiesFor (some s)) (initData (getDefaults cfg)) =
          Except.ok (extractDataSafe root (initData (getDefaults cfg))) := by
        unfold strategiesFor runChainE
        rw [h1]
        simp [hm]
      unfold parseNfo
      have hE : parseNfoE cfg (some s) =
          Except.ok (extractDataSafe root (initData (getDefaults cfg))) := hc
      rw [hE]
    · unfold parseNfoAttempts strategiesFor runChainCount
      rw [h1]
      simp [hm]

/-- Claim C2 witness: on the concrete well-formed document `docTitleHi`,
whose strategy-1 extraction is meaningful, `parse_nfo` returns exactly
that extraction and invokes exactly one strategy. -/
theorem strategy_chain_first_meaningful_witness :
    parseNfo none (some docTitleHi) = extractDataSafe rootTitleHi (initData (getDefaults none)) ∧
    parseNfoAttempts none (some docTitleHi) = 1 :=
  strategy_chain_first_meaningful.2 none docTitleHi rootTitleHi (by decide) (by decide)

/-- Claim C3 counterexample: for the empty (readable) file, the returned
record's studio is the empty string, not the configured default `未知` —
the regex strategy blanks studio, and that very blanking makes its result
pass the heuristic. -/
theorem default_completeness_counterexample :
    (parseNfo none (some "")).studio = "" ∧
    (initData (getDefaults none)).studio = "未知" ∧
    (parseNfo none (some "")).studio ≠ (initData (getDefaults none)).studio := by decide

/-- Claim C3 (amended): for an unreadable input file every field of the
returned record equals its configured default (hardcoded fallback where
configuration omits it) — for an *empty* file this fails: the accepted
regex strategy overwrites studio, director and plot with empty strings. -/
theorem default_completeness_unreadable :
    ∀ cfg : Option Defaults, parseNfo cfg none = initData (getDefaults cfg) ∧
      parseNfoE cfg none = Except.ok (initData (getDefaults cfg)) := by
  intro cfg
  exact ⟨rfl, rfl⟩

/-- Claim C4 counterexample: with a configuration whose studio default is
`ACME`, the freshly default-initialized record is judged meaningful by the
source heuristic (because its studio `ACME` differs from the hardcoded
literal `未知`), while the claim's predicate — comparing studio against the
*configured* default — rejects it. -/
theorem acceptance_heuristic_counterexample :
    hasMeaningfulData acmeDefaults (initData acmeDefaults) = true ∧
    claimMeaningful acmeDefaults (initData acmeDefaults) = false := by decide

/-- Claim C4 (amended): a strategy result is accepted exactly when one of
the listed conditions holds, where studio and director are compared
against the hardcoded literal `未知` (not the configured default) and plot
is compared against the configured plot default with an empty-string
fallback. -/
theorem acceptance_heuristic_amended :
    ∀ (dfl : Defaults) (r : Record),
      hasMeaningfulData dfl r = true ↔
        (pyStrip r.title ≠ "" ∨ pyStrip r.studio ≠ "未知" ∨ pyStrip r.director ≠ "未知" ∨
         pyStrip r.plot ≠ dfl.plot.getD "" ∨ 0 < r.rating ∨ r.actors ≠ [] ∨ r.genre ≠ [] ∨
         pyStrip r.release_date ≠ "") := by
  intro dfl r
  simp [hasMeaningfulData, List.length_pos]
  tauto

/-- Claim C5 (code-bug evidence): on a rating text of `8.25` the returned
record's rating is exactly 8.25 — not 8.2 (round half to even) and not 8.3
(round half away from zero); rounding to one decimal place never happens.
A non-numeric rating text leaves the rating at its prior value and raises
nothing (the record is still returned, with its title extracted). -/
theorem rating_stored_unrounded :
    (parseNfo none (some docRating825)).rating = mkRat 33 4 ∧
    mkRat 33 4 ≠ mkRat 41 5 ∧
    mkRat 33 4 ≠ mkRat 83 10 ∧
    (parseNfo none (some docRatingNaN)).rating = 0 ∧
    (parseNfo none (some docRatingNaN)).title = "T" := by decide

/-- Claim C6 counterexample: the regex strategy run on an empty file finds
no `studio` match (`searchCap` is `none`) yet overwrites the field,
resetting the configured default `未知` to the empty string; and the
tree-based extraction on a root with no `genre`/`actor` children resets a
prior non-empty genre list `["X"]` and actor list `["Y"]` to `[]`. -/
theorem overwrite_only_found_counterexample :
    searchCap "studio".data "".data = none ∧
    (lineExtract "" (initData (getDefaults none))).studio = "" ∧
    (initData (getDefaults none)).studio = "未知" ∧
    childrenTagged rootEmptyMovie "genre" = [] ∧
    childrenTagged rootEmptyMovie "actor" = [] ∧
    recLists.genre = ["X"] ∧ (extractDataSafe rootEmptyMovie recLists).genre = [] ∧
    recLists.actors = ["Y"] ∧ (extractDataSafe rootEmptyMovie recLists).actors = [] := by decide

theorem optFieldUpdate_isSome (root : XElem) (tag : String) (old : Option String)
    (h : old.isSome = true) : (optFieldUpdate root tag old).isSome = true := by
  rcases hf : findChild root tag with _ | e
  · simpa [optFieldUpdate, hf] using h
  · rcases ht : e.text with _ | t
    · simpa [optFieldUpdate, hf, ht] using h
    · by_cases h1 : t = ""
      · simpa [optFieldUpdate, hf, ht, h1] using h
      · by_cases h2 : cleanText t = ""
        · simpa [optFieldUpdate, hf, ht, h1, h2] using h
        · simp [optFieldUpdate, hf, ht, h1, h2]

/-- Claim C6 (amended): no field key is ever removed (present optional
keys stay present). The strict/recovery tree extraction overwrites its
scalar fields only when the tag was found with a usable value, but
unconditionally resets `genre` and `actors` to the freshly scanned lists
(source lines 204 and 211), so prior non-empty lists are clobbered to `[]`
when no such children exist; the minidom fallback overwrites only the
title/studio/series values it found. The regex strategy assigns its match
results unconditionally, so a field whose tag is absent from the input is
reset to the empty string — only the rating keeps its prior value there. -/
theorem overwrite_only_found_amended :
    (∀ (root : XElem) (d : Record),
      findChild root "studio" = none → (extractDataSafe root d).studio = d.studio) ∧
    (∀ (root : XElem) (d : Record),
      findChild root "title" = none → (extractDataSafe root d).title = d.title) ∧
    (∀ (root : XElem) (d : Record),
      findChild root "maker" = none → (extractDataSafe root d).maker = d.maker) ∧
    (∀ (root : XElem) (d : Record),
      d.runtime.isSome = true → ((extractDataSafe root d).runtime).isSome = true) ∧
    (∀ (root : XElem) (d : Record),
      (extractDataSafe root d).genre = genresOf root ∧
        (extractDataSafe root d).actors = actorsOf root) ∧
    (∀ (root : XElem) (d : Record),
      childrenTagged root "genre" = [] → (extractDataSafe root d).genre = []) ∧
    (∀ (root : XElem) (d : Record),
      childrenTagged root "actor" = [] → (extractDataSafe root d).actors = []) ∧
    (∀ (root : XElem) (d : Record),
      mdFind root "studio" = none → (minidomExtract root d).studio = d.studio) ∧
    (∀ (d : Record) (content : String),
      searchCap "studio".data content.data = none → (lineExtract content d).studio = "") ∧
    (∀ d : Record, (lineExtract "" d).studio = "" ∧ (lineExtract "" d).director = "" ∧
      (lineExtract "" d).plot = "" ∧ (lineExtract "" d).rating = d.rating) := by
  refine ⟨?_, ?_, ?_, ?_, ?_, ?_, ?_, ?_, ?_, ?_⟩
  · intro root d h
    simp [extractDataSafe, textFieldUpdate, h]
  · intro root d h
    simp [extractDataSafe, textFieldUpdate, h]
  · intro root d h
    simp [extractDataSafe, textFieldUpdate, h]
  · intro root d h
    exact optFieldUpdate_isSome root "runtime" d.runtime h
  · intro root d
    exact ⟨rfl, rfl⟩
  · intro root d h
    show genresOf root = []
    unfold genresOf
    rw [h]
    rfl
  · intro root d h
    show actorsOf root = []
    unfold actorsOf
    rw [h]
    rfl
  · intro root d h
    simp [minidomExtract, h]
  · intro d content h
    simp [lineExtract, extractField, h]
  · intro d
    exact ⟨rfl, rfl, rfl, rfl⟩

/-- Claim C6 witness: on a root with no children, a record with a present
runtime key keeps all scalar fields and the key, while a record with
non-empty genre and actor lists has both reset to `[]`; on the empty
content the regex strategy resets studio. -/
theorem overwrite_only_found_amended_witness :
    (extractDataSafe rootEmptyMovie recRun).studio = recRun.studio ∧
    (extractDataSafe rootEmptyMovie recRun).title = recRun.title ∧
    (extractDataSafe rootEmptyMovie recRun).maker = recRun.maker ∧
    ((extractDataSafe rootEmptyMovie recRun).runtime).isSome = true ∧
    (extractDataSafe rootEmptyMovie recLists).genre = [] ∧
    (extractDataSafe rootEmptyMovie recLists).actors = [] ∧
    (minidomExtract rootEmptyMovie recRun).studio = recRun.studio ∧
    (lineExtract "" recRun).studio = "" :=
  ⟨overwrite_only_found_amended.1 _ _ (by decide),
   overwrite_only_found_amended.2.1 _ _ (by decide),
   overwrite_only_found_amended.2.2.1 _ _ (by decide),
   overwrite_only_found_amended.2.2.2.1 _ _ (by decide),
   overwrite_only_found_amended.2.2.2.2.2.1 _ _ (by decide),
   overwrite_only_found_amended.2.2.2.2.2.2.1 _ _ (by decide),
   overwrite_only_found_amended.2.2.2.2.2.2.2.1 _ _ (by decide),
   overwrite_only_found_amended.2.2.2.2.2.2.2.2.1 _ _ (by decide)⟩

/-- Claim C7 counterexample: on `docBareAmp`, strategy 2 succeeds without
being accepted (its result is not meaningful) after writing `maker`;
strategy 3 is then the accepted strategy (three attempts), yet the
returned record's maker is the strategy-2 leftover `X &` — strategy 3 run
on the fresh default record would leave maker at `未知`. -/
theorem single_strategy_provenance_counterexample :
    parseNfoAttempts none (some docBareAmp) = 3 ∧
    (parseNfo none (some docBareAmp)).maker = "X &" ∧
    stratRecovery (some docBareAmp) (initData (getDefaults none)) = Except.ok recBareAmp ∧
    hasMeaningfulData (getDefaults none) recBareAmp = false ∧
    (lineExtract docBareAmp (initData (getDefaults none))).maker = "未知" := by decide

/-- Claim C7 (amended): the strategies mutate one shared record threaded
through the chain — a strategy that returns without being accepted passes
its mutated record on to the next strategy, and a strategy that raises
passes the record through unchanged; the returned record thus carries the
accepted strategy's writes on top of leftovers of earlier non-accepted
attempts. -/
theorem shared_record_threading :
    (∀ (dfl : Defaults) (s : Strategy) (rest : List Strategy) (data r : Record),
      s data = Except.ok r → hasMeaningfulData dfl r = false →
      runChainE dfl (s :: rest) data = runChainE dfl rest r) ∧
    (∀ (dfl : Defaults) (s : Strategy) (rest : List Strategy) (data : Record) (e : Unit),
      s data = Except.error e → runChainE dfl (s :: rest) data = runChainE dfl rest data) := by
  constructor
  · intro dfl s rest data r hs hm
    conv_lhs => unfold runChainE
    rw [hs]
    simp [hm]
  · intro dfl s rest data e hs
    conv_lhs => unfold runChainE
    rw [hs]

/-- Claim C7 witness: the concrete threading step on `docBareAmp` —
strategy 2 hands its mutated record (maker written) to the rest of the
chain. -/
theorem shared_record_threading_witness :
    runChainE (getDefaults none)
      (stratRecovery (some docBareAmp) ::
        [stratLineByLine (some docBareAmp), stratMinidom (some docBareAmp)])
      (initData (getDefaults none)) =
    runChainE (getDefaults none)
      [stratLineByLine (some docBareAmp), stratMinidom (some docBareAmp)] recBareAmp :=
  shared_record_threading.1 _ _ _ _ _ (by decide) (by decide)

theorem actorPick_clean (x : XElem) (a : String) (h : actorPick x = some a) :
    ∃ t, a = cleanText t := by
  rcases hf : findChild x "name" with _ | ne
  · simp [actorPick, hf] at h
  · rcases ht : ne.text with _ | t
    · simp [actorPick, hf, ht] at h
    · by_cases h1 : t = ""
      · simp [actorPick, hf, ht, h1] at h
      · by_cases h2 : cleanText t = ""
        · simp [actorPick, hf, ht, h1, h2] at h
        · refine ⟨t, ?_⟩
          simp [actorPick, hf, ht, h1, h2] at h
          exact h.symm

theorem genrePick_clean (x : XElem) (g : String) (h : genrePick x = some g) :
    ∃ t, g = cleanText t := by
  rcases ht : x.text with _ | t
  · simp [genrePick, ht] at h
  · by_cases h1 : t = ""
    · simp [genrePick, ht, h1] at h
    · by_cases h2 : cleanText t = ""
      · simp [genrePick, ht, h1, h2] at h
      · refine ⟨t, ?_⟩
        simp [genrePick, ht, h1, h2] at h
        exact h.symm

/-- Claim C8 counterexample: on `docCtrlTitle` the minidom fallback is the
accepted strategy and stores the raw node value: the returned title is the
single control character U+007F, which cleaning would have removed
(`cleanText` of it is empty). -/
theorem text_cleaning_counterexample :
    (parseNfo none (some docCtrlTitle)).title = "\x7F" ∧
    ((parseNfo none (some docCtrlTitle)).title.data.any isCatC) = true ∧
    cleanText "\x7F" = "" ∧
    parseNfoAttempts none (some docCtrlTitle) = 4 := by decide

/-- Claim C8 (amended): every string stored by the strict, recovery and
regex strategies has passed `_clean_text` (so it is entity-decoded and
carries no control character; an embedded NUL is removed with the
surrounding text intact and `&amp;` becomes `&` exactly once) — but the
minidom fallback stores raw node values without cleaning. -/
theorem text_cleaning_amended :
    (∀ (root : XElem) (tag old : String),
      textFieldUpdate root tag old = old ∨ ∃ t, textFieldUpdate root tag old = cleanText t) ∧
    (∀ content tag : String,
      extractField content tag = "" ∨ ∃ t, extractField content tag = cleanText t) ∧
    (∀ (root : XElem) (a : String), a ∈ actorsOf root → ∃ t, a = cleanText t) ∧
    (∀ (root : XElem) (g : String), g ∈ genresOf root → ∃ t, g = cleanText t) ∧
    (∀ (content a : String), a ∈ actorsOfContent content → ∃ t, a = cleanText t) ∧
    (∀ (content g : String), g ∈ genresOfContent content → ∃ t, g = cleanText t) ∧
    (∀ s : String, (cleanText s).data.all (fun c => !isCatC c) = true) ∧
    cleanText "a\x00b" = "ab" ∧ cleanText "a&amp;b" = "a&b" := by
  refine ⟨textFieldUpdate_cases, extractField_cases, ?_, ?_, ?_, ?_,
    cleanText_no_ctrl, by decide, by decide⟩
  · intro root a ha
    obtain ⟨x, _, hx⟩ := List.mem_filterMap.mp ha
    exact actorPick_clean x a hx
  · intro root g hg
    obtain ⟨x, _, hx⟩ := List.mem_filterMap.mp hg
    exact genrePick_clean x g hx
  · intro content a ha
    obtain ⟨x, _, hx⟩ := List.mem_map.mp ha
    exact ⟨String.mk x, hx.symm⟩
  · intro content g hg
    obtain ⟨x, _, hx⟩ := List.mem_map.mp hg
    exact ⟨String.mk x, hx.symm⟩

/-- Claim C8 witness: concrete cleaned values produced by the strict and
regex strategies. -/
theorem text_cleaning_amended_witness :
    (∃ t, "A" = cleanText t) ∧ (∃ t, "G" = cleanText t) ∧
    (∃ t, "J" = cleanText t) ∧ (∃ t, "K" = cleanText t) :=
  ⟨text_cleaning_amended.2.2.1 rootActorsABC "A" (by decide),
   text_cleaning_amended.2.2.2.1 (XElem.mk "movie" none [XElem.mk "genre" (some "G") []]) "G"
     (by decide),
   text_cleaning_amended.2.2.2.2.1 "<actor><name>J</name></actor>" "J" (by decide),
   text_cleaning_amended.2.2.2.2.2.1 "<genre>K</genre>" "K" (by decide)⟩

/-- Claim C9 counterexample: a run of the recovery strategy in which the
source file is read and the scratch file is created, but the write of the
sanitized content fails: the scratch file exists and the `finally:
os.unlink` is never executed — the error propagates out of the `with`
block before the `try` is entered, regardless of what the parse would have
done. -/
theorem scratch_cleanup_counterexample :
    recoveryScratch { readOk := true, createOk := true, writeOk := false, parseOk := true } =
      (true, false) ∧
    recoveryScratch { readOk := true, createOk := true, writeOk := false, parseOk := false } =
      (true, false) := by decide

/-- Claim C9 (amended): once the scratch content has been written, the
unlink is executed on every exit path — successful re-parse, parse
failure, or any later error — equivalently, created implies deleted; and
cleanup is independent of the parse outcome. The uncovered path is an
error during the write itself, which leaks the created file. -/
theorem scratch_cleanup_amended :
    (∀ t : ScratchRun, t.writeOk = true → (recoveryScratch t).1 = (recoveryScratch t).2) ∧
    (∀ r c w p1 p2 : Bool,
      recoveryScratch ⟨r, c, w, p1⟩ = recoveryScratch ⟨r, c, w, p2⟩) := by
  constructor
  · intro t hw
    obtain ⟨r, c, w, p⟩ := t
    simp only at hw
    subst hw
    cases r <;> cases c <;> rfl
  · intro r c w p1 p2
    cases r <;> cases c <;> cases w <;> rfl

/-- Claim C9 witness: a fully successful run both creates and unlinks the
scratch file. -/
theorem scratch_cleanup_amended_witness :
    (recoveryScratch ⟨true, true, true, false⟩).1 = (recoveryScratch ⟨true, true, true, false⟩).2 :=
  scratch_cleanup_amended.1 ⟨true, true, true, false⟩ (by decide)

/-- Claim C10: for every configuration and every well-formed document
whose `actor` children are exactly the given names (each inside a `name`
sub-element, names already clean and non-empty) followed by a bare actor
element without a `name` sub-element, the returned record's actors list
equals those names in document order, and the bare element contributes no
entry. -/
theorem actor_ordering :
    ∀ (cfg : Option Defaults) (s : String) (root : XElem) (names : List String),
      parseXML s = some root →
      childrenTagged root "actor" = names.map actorElem ++ [XElem.mk "actor" none []] →
      (∀ n ∈ names, cleanText n = n ∧ n ≠ "") →
      names ≠ [] →
      (parseNfo cfg (some s)).actors = names ∧
        (extractDataSafe root (initData (getDefaults cfg))).actors = names := by
  intro cfg s root names hp hch hcl hne
  have hext : (extractDataSafe root (initData (getDefaults cfg))).actors = names := by
    show actorsOf root = names
    exact actorsOf_concat names root hch hcl
  refine ⟨?_, hext⟩
  have hm : hasMeaningfulData (getDefaults cfg) (extractDataSafe root (initData (getDefaults cfg))) = true :=
    meaningful_of_actors _ _ (by rw [hext]; exact hne)
  have h1 : stratStandardXml (some s) (initData (getDefaults cfg)) =
      Except.ok (extractDataSafe root (initData (getDefaults cfg))) := by
    simp [stratStandardXml, hp]
  have hc : runChainE (getDefaults cfg) (strategiesFor (some s)) (initData (getDefaults cfg)) =
      Except.ok (extractDataSafe root (initData (getDefaults cfg))) := by
    unfold strategiesFor runChainE
    rw [h1]
    simp [hm]
  have hE : parseNfoE cfg (some s) =
      Except.ok (extractDataSafe root (initData (getDefaults cfg))) := hc
  unfold parseNfo
  rw [hE]
  exact hext

/-- Claim C10 witness: the concrete document with actors A, B, C and a
trailing bare actor element yields exactly `["A", "B", "C"]`. -/
theorem actor_ordering_witness :
    (parseNfo none (some docActorsABC)).actors = ["A", "B", "C"] ∧
    (extractDataSafe rootActorsABC (initData (getDefaults none))).actors = ["A", "B", "C"] :=
  actor_ordering none docActorsABC rootActorsABC ["A", "B", "C"]
    (by decide) (by decide) (by decide) (by decide)
